import Mathlib

/-!
Shallow embedding of `src/flasher.ts` (fastboot.ts): the fastboot protocol
engine over WebUSB, the instruction interpreter, and the flash orchestrator's
archive-entry lookups. JavaScript strings are modelled as `List Char`;
JavaScript numbers that can be `NaN` are modelled as `Option Int`.
-/

/-- A JavaScript string, modelled as its list of characters. -/
abbrev Str := List Char

/-- Character list of a Lean string literal. -/
def str (s : String) : Str := s.data

deriving instance DecidableEq for Except

/-- The JavaScript whitespace class (`\s` in regexes, and the set trimmed by
`String.prototype.trim`): ASCII blanks plus the Unicode space separators,
line separators and the BOM.  NUL is *not* whitespace in JavaScript. -/
def isJsWs (c : Char) : Bool :=
  c = ' ' || c = '\t' || c = '\n' || c = '\r' || c = '\x0b' || c = '\x0c' ||
  c = '\u00a0' || c = '\u1680' || ('\u2000' ≤ c && c ≤ '\u200a') ||
  c = '\u2028' || c = '\u2029' || c = '\u202f' || c = '\u205f' ||
  c = '\u3000' || c = '\ufeff'

/-- JavaScript `String.prototype.trim`: strip leading and trailing
whitespace. -/
def jsTrim (s : Str) : Str :=
  ((s.dropWhile isJsWs).reverse.dropWhile isJsWs).reverse

/-- JavaScript `split` on a single-character class (used for `split("\n")`
and `split(/[\\/]/)`): always yields at least one piece. -/
def splitOnPred (p : Char → Bool) : Str → List Str
  | [] => [[]]
  | c :: rest =>
    match splitOnPred p rest, p c with
    | r, true => [] :: r
    | [], false => [[c]]
    | h :: t, false => (c :: h) :: t

/-- Helper for `tokenize`: accumulates the current (reversed) token. -/
def tokenizeAux : Str → Str → List Str
  | [], cur => if cur = [] then [] else [cur.reverse]
  | c :: rest, cur =>
    if isJsWs c then
      if cur = [] then tokenizeAux rest []
      else cur.reverse :: tokenizeAux rest []
    else tokenizeAux rest (c :: cur)

/-- JavaScript `text.split(/\s+/).map(trim).filter(x => x !== "")`: the
maximal runs of non-whitespace characters, in order. -/
def tokenize (s : Str) : List Str := tokenizeAux s []

/-- Decimal digit character, `0 ≤ n ≤ 9`. -/
def decDigitChar : Nat → Char
  | 0 => '0'
  | 1 => '1'
  | 2 => '2'
  | 3 => '3'
  | 4 => '4'
  | 5 => '5'
  | 6 => '6'
  | 7 => '7'
  | 8 => '8'
  | _ => '9'

/-- Hexadecimal digit character, `0 ≤ n ≤ 15` (lowercase, as JavaScript's
`Number.prototype.toString(16)` produces). -/
def hexDigitChar : Nat → Char
  | 0 => '0'
  | 1 => '1'
  | 2 => '2'
  | 3 => '3'
  | 4 => '4'
  | 5 => '5'
  | 6 => '6'
  | 7 => '7'
  | 8 => '8'
  | 9 => '9'
  | 10 => 'a'
  | 11 => 'b'
  | 12 => 'c'
  | 13 => 'd'
  | 14 => 'e'
  | _ => 'f'

/-- Fuel-based worker for `natToDec` (structural recursion keeps it
kernel-reducible). -/
def natToDecAux (fuel : Nat) (n : Nat) : Str :=
  match fuel with
  | 0 => []
  | fuel + 1 =>
    if n < 10 then [decDigitChar n]
    else natToDecAux fuel (n / 10) ++ [decDigitChar (n % 10)]

/-- Decimal digits of a natural number (JavaScript `String(n)` for a
non-negative integer). -/
def natToDec (n : Nat) : Str := natToDecAux (n + 1) n

/-- Fuel-based worker for `natToHex`. -/
def natToHexAux (fuel : Nat) (n : Nat) : Str :=
  match fuel with
  | 0 => []
  | fuel + 1 =>
    if n < 16 then [hexDigitChar n]
    else natToHexAux fuel (n / 16) ++ [hexDigitChar (n % 16)]

/-- Lowercase hexadecimal digits of a natural number (JavaScript
`n.toString(16)` for a non-negative integer). -/
def natToHex (n : Nat) : Str := natToHexAux (n + 1) n

/-- JavaScript number-to-string where the number may be `NaN` (modelled as
`none`). -/
def jsNumToStr : Option Int → Str
  | none => str "NaN"
  | some i => if i < 0 then '-' :: natToDec i.natAbs else natToDec i.natAbs

/-- JavaScript `String.prototype.padStart(8, "0")`. -/
def padStart8 (s : Str) : Str :=
  List.replicate (8 - s.length) '0' ++ s

/-- Hexadecimal digit recognizer (the digits `parseInt(_, 16)` accepts). -/
def isHexDigit (c : Char) : Bool :=
  ('0' ≤ c && c ≤ '9') || ('a' ≤ c && c ≤ 'f') || ('A' ≤ c && c ≤ 'F')

/-- Value of one hexadecimal digit. -/
def hexDigitVal (c : Char) : Nat :=
  if '0' ≤ c && c ≤ '9' then c.toNat - '0'.toNat
  else if 'a' ≤ c && c ≤ 'f' then c.toNat - 'a'.toNat + 10
  else c.toNat - 'A'.toNat + 10

/-- Big-endian value of a string of hexadecimal digits. -/
def hexValue (l : Str) : Nat := l.foldl (fun acc c => 16 * acc + hexDigitVal c) 0

/-- Strip a leading `0x` / `0X` marker, as `parseInt(_, 16)` does. -/
def stripHexMark (l : Str) : Str :=
  match l with
  | c0 :: c1 :: rest => if c0 = '0' ∧ (c1 = 'x' ∨ c1 = 'X') then rest else l
  | _ => l

/-- Split an optional leading sign: `(negative?, rest)`. -/
def splitSign (l : Str) : Bool × Str :=
  match l with
  | c :: r => if c = '-' then (true, r) else if c = '+' then (false, r) else (false, l)
  | [] => (false, [])

/-- JavaScript `parseInt(s, 16)`: skip leading whitespace, optional sign,
optional `0x`, then the longest run of hexadecimal digits; `NaN` (here
`none`) when that run is empty. -/
def parseIntHex (s : Str) : Option Int :=
  let sr := splitSign (s.dropWhile isJsWs)
  let ds := (stripHexMark sr.2).takeWhile isHexDigit
  if ds = [] then none
  else if sr.1 then some (-(hexValue ds : Int))
  else some (hexValue ds : Int)

/-- The five fastboot response status codes. -/
inductive Status
  | OKAY
  | FAIL
  | DATA
  | INFO
  | TEXT
deriving DecidableEq

/-- Inbound `ResponsePacket` of `flasher.ts`: `status`, optional `message`,
optional `dataLength` (a JavaScript number, `none` = `NaN`/absent). -/
structure ResponsePacket where
  status : Status
  message : Option Str := none
  dataLength : Option Int := none
deriving DecidableEq

/-- The `(bootloader)  ` tag `getPacket` puts in front of INFO messages. -/
def bootloaderTag : Str := str "(bootloader)  "

/-- `getPacket` of `flasher.ts`, decoding part: the first 4 characters of the
decoded transfer are the status; INFO/TEXT/FAIL/OKAY carry the trimmed
remainder as message (INFO prefixed with the bootloader tag); DATA parses
characters 4..12 with `parseInt(_, 16)`; anything else throws
`invalid packet`. -/
def decodePacket (s : Str) : Except Str ResponsePacket :=
  let status := s.take 4
  let message := jsTrim (s.drop 4)
  if status = str "INFO" then
    .ok { status := .INFO, message := some (bootloaderTag ++ message) }
  else if status = str "TEXT" then .ok { status := .TEXT, message := some message }
  else if status = str "FAIL" then .ok { status := .FAIL, message := some message }
  else if status = str "OKAY" then .ok { status := .OKAY, message := some message }
  else if status = str "DATA" then
    let dataLength := parseIntHex ((s.drop 4).take 8)
    .ok { status := .DATA, dataLength := dataLength,
          message := some (str "ready to transfer " ++ jsNumToStr dataLength ++ str " bytes") }
  else .error (str "invalid packet: " ++ s)

/-- Message of a successfully decoded packet, `none` on a decode error. -/
def decodedMessage (r : Except Str ResponsePacket) : Option Str :=
  match r with
  | .ok p => p.message
  | .error _ => none

/-- The fixed command-name set `COMMAND_NAMES` of `flasher.ts`
(`continue` and `reboot-bootloader` renamed to valid Lean constructor
names). -/
inductive CommandName
  | update
  | flashall
  | flash
  | flashing
  | erase
  | format
  | getvar
  | set_active
  | boot
  | devices
  | continueCmd
  | reboot
  | rebootBootloader
  | sleep
  | oem
  | help
deriving DecidableEq

/-- `isCommandName` of `flasher.ts`, returning the matched command. -/
def commandFromStr (w : Str) : Option CommandName :=
  if w = str "update" then some .update
  else if w = str "flashall" then some .flashall
  else if w = str "flash" then some .flash
  else if w = str "flashing" then some .flashing
  else if w = str "erase" then some .erase
  else if w = str "format" then some .format
  else if w = str "getvar" then some .getvar
  else if w = str "set_active" then some .set_active
  else if w = str "boot" then some .boot
  else if w = str "devices" then some .devices
  else if w = str "continue" then some .continueCmd
  else if w = str "reboot" then some .reboot
  else if w = str "reboot-bootloader" then some .rebootBootloader
  else if w = str "sleep" then some .sleep
  else if w = str "oem" then some .oem
  else if w = str "help" then some .help
  else none

/-- `SlotName` of `flasher.ts`. -/
inductive SlotName
  | current
  | other
  | a
  | b
deriving DecidableEq

/-- Values of the `--set-active=` option. -/
inductive SetActiveVal
  | other
  | a
  | b
deriving DecidableEq

/-- `InstructionOptions` of `flasher.ts`: every field starts absent; the
parser only ever assigns `true` to the boolean flags. -/
structure InstructionOptions where
  wipe : Option Bool := none
  setActive : Option SetActiveVal := none
  slot : Option SlotName := none
  skipReboot : Option Bool := none
  applyVbmeta : Option Bool := none
deriving DecidableEq

/-- `Instruction` of `flasher.ts`. -/
structure Instruction where
  command : CommandName
  args : List Str
  options : InstructionOptions
deriving DecidableEq

/-- The mutable state of `parseInstruction`'s word loop. -/
structure PState where
  command : Option CommandName := none
  args : List Str := []
  options : InstructionOptions := {}
deriving DecidableEq

/-- One iteration of `parseInstruction`'s `for (const word of words)` loop. -/
def stepWord (st : PState) (w : Str) : Except Str PState :=
  if w.head? = some '-' then
    if w = str "-w" || w = str "--wipe" then
      .ok { st with options := { st.options with wipe := some true } }
    else if w = str "--set-active=other" then
      .ok { st with options := { st.options with setActive := some .other } }
    else if w = str "--set-active=a" || w = str "--set-active=b" then
      match w.getLast? with
      | some 'a' => .ok { st with options := { st.options with setActive := some .a } }
      | some 'b' => .ok { st with options := { st.options with setActive := some .b } }
      | _ => .ok st
    else if w = str "--slot-other" then
      .ok { st with options := { st.options with slot := some .other } }
    else if w.take 6 = str "--slot" then
      match (splitOnPred (· = '=') w).get? 1 with
      | none => .error (str "--slot requires a value")
      | some v =>
        if v = [] then .error (str "--slot requires a value")
        else if v = str "current" then
          .ok { st with options := { st.options with slot := some .current } }
        else if v = str "other" then
          .ok { st with options := { st.options with slot := some .other } }
        else if v = str "a" then
          .ok { st with options := { st.options with slot := some .a } }
        else if v = str "b" then
          .ok { st with options := { st.options with slot := some .b } }
        else .error (str "unknown slot: " ++ v)
    else if w = str "--skip-reboot" then
      .ok { st with options := { st.options with skipReboot := some true } }
    else if w = str "--apply-vbmeta" then
      .ok { st with options := { st.options with applyVbmeta := some true } }
    else .ok st
  else
    match st.command with
    | some _ => .ok { st with args := st.args ++ [w] }
    | none =>
      match commandFromStr w with
      | some c => .ok { st with command := some c }
      | none => .error (str "Unknown command: " ++ w)

/-- The word loop of `parseInstruction` plus its final `Missing command`
check, over an already tokenized line. -/
def parseWords (ws : List Str) : Except Str Instruction :=
  match ws.foldlM stepWord {} with
  | .error e => .error e
  | .ok st =>
    match st.command with
    | none => .error (str "Missing command")
    | some c => .ok { command := c, args := st.args, options := st.options }

/-- `parseInstruction` of `flasher.ts`. -/
def parseInstruction (text : Str) : Except Str Instruction :=
  let t := if text.take 8 = str "fastboot" then jsTrim (text.drop 8) else text
  parseWords (tokenize t)

/-- `parseInstructions` of `flasher.ts`: split on newlines, trim, drop blank
lines and `#` lines, parse each remaining line. -/
def parseInstructions (text : Str) : Except Str (List Instruction) :=
  (((splitOnPred (· = '\n') text).map jsTrim
    |>.filter (· ≠ [])
    |>.filter (fun l => l.head? ≠ some '#')).mapM parseInstruction)

/-- A zip file entry as the orchestrator sees it. -/
structure FileEntry where
  filename : Str
deriving DecidableEq

/-- The path separators of `split(/[\\/]/)` in `getEntry`. -/
def isPathSep (c : Char) : Bool := c = '/' || c = '\\'

/-- `e.filename.split(/[\\/]/).pop()`: the basename of an entry name. -/
def basename (s : Str) : Str := (splitOnPred isPathSep s).getLastD []

/-- `getEntry` of `flasher.ts`: first entry whose basename equals the target
filename, else an error. -/
def getEntry (entries : List FileEntry) (filename : Str) : Except Str FileEntry :=
  match entries.find? (fun e => basename e.filename = filename) with
  | some e => .ok e
  | none => .error (filename ++ str " not found in zip")

/-- `runFlashAll`'s lookup of the flash script: `getEntry(entries, "flash-all.sh")`. -/
def locateFlashAllSh (entries : List FileEntry) : Except Str FileEntry :=
  getEntry entries (str "flash-all.sh")

/-- `run`'s lookup of a `flash` instruction's image: `getEntry(entries, filename)`. -/
def locateFlashImage (entries : List FileEntry) (filename : Str) : Except Str FileEntry :=
  getEntry entries filename

/-- `run`'s lookup of the nested `update` archive: `getEntry(entries, zipName)`. -/
def locateNestedArchive (entries : List FileEntry) (zipName : Str) : Except Str FileEntry :=
  getEntry entries zipName

/-- `run`'s lookup of the manifest inside the nested archive:
`nestedEntries.find((e) => e.filename === "fastboot-info.txt")` — a full
filename comparison, not a basename one. -/
def locateFastbootInfo (nested : List FileEntry) : Option FileEntry :=
  nested.find? (fun e => e.filename = str "fastboot-info.txt")

/-- A USB endpoint descriptor: its `direction` string and number. -/
structure Endpoint where
  direction : Str
  endpointNumber : Nat
deriving DecidableEq

/-- The `in`/`out` fields `setup()` assigns; both start undefined. -/
structure EndpointAssignment where
  inEp : Option Endpoint := none
  outEp : Option Endpoint := none
deriving DecidableEq

/-- `setup()` of `flasher.ts` over the first configuration's first
interface's endpoint list: requires exactly 2 endpoints, then assigns each
by its direction string; a direction that is neither `in` nor `out`
throws. -/
def setupEndpoints (endpoints : List Endpoint) : Except Str EndpointAssignment :=
  if endpoints.length ≠ 2 then .error (str "USB Interface must have only 2 endpoints")
  else
    endpoints.foldlM
      (fun st ep =>
        if ep.direction = str "in" then .ok { st with inEp := some ep }
        else if ep.direction = str "out" then .ok { st with outEp := some ep }
        else .error (str "Endpoint error"))
      {}

/-- What the `FastbootDevice` constructor reads from the USB device handle. -/
structure DeviceInfo where
  serialNumber : Option Str
  endpoints : List Endpoint
deriving DecidableEq

/-- What a successful `FastbootDevice` construction stores. -/
structure Binding where
  serialNumber : Str
  inEp : Option Endpoint
  outEp : Option Endpoint
deriving DecidableEq

/-- The `FastbootDevice` constructor: requires a truthy `serialNumber`
(present and non-empty), then runs `setup()`. -/
def bindDevice (d : DeviceInfo) : Except Str Binding :=
  match d.serialNumber with
  | none => .error (str "Access to USBDevice#serialNumber is necessary")
  | some sn =>
    if sn = [] then .error (str "Access to USBDevice#serialNumber is necessary")
    else
      match setupEndpoints d.endpoints with
      | .error e => .error e
      | .ok a => .ok { serialNumber := sn, inEp := a.inEp, outEp := a.outEp }

/-- A packet of a session: outbound `CommandPacket` or inbound
`ResponsePacket`. -/
inductive Packet
  | command (text : Str)
  | response (r : ResponsePacket)
deriving DecidableEq

/-- The terminal session statuses of the TS type
`status: null | "OKAY" | "FAIL"`. -/
inductive TermStatus
  | OKAY
  | FAIL
deriving DecidableEq

/-- `FastbootSession` of `flasher.ts`. -/
structure FastbootSession where
  status : Option TermStatus := none
  packets : List Packet := []
deriving DecidableEq

/-- The session-related state of a `FastbootDevice`: the current session and
the archived session history. -/
structure EngineState where
  session : FastbootSession
  sessions : List FastbootSession
deriving DecidableEq

/-- `{ status: null, packets: [] }`. -/
def freshSession : FastbootSession := {}

/-- The state right after the constructor ran. -/
def initialEngine : EngineState := { session := freshSession, sessions := [] }

/-- `this.session.packets.push(p)`. -/
def pushPacket (st : EngineState) (p : Packet) : EngineState :=
  { st with session := { st.session with packets := st.session.packets ++ [p] } }

/-- JavaScript `packet.status`: undefined on a `CommandPacket`. -/
def packetStatus : Packet → Option Status
  | .command _ => none
  | .response r => some r.status

/-- The `lastPacket` getter. -/
def lastPacket (s : FastbootSession) : Option Packet := s.packets.getLast?

/-- The `isActive` getter: false on an empty session, otherwise true unless
the most recent packet's status is `FAIL` or `OKAY`. -/
def isActive (s : FastbootSession) : Bool :=
  match s.packets.getLast? with
  | none => false
  | some p => !(packetStatus p = some .FAIL || packetStatus p = some .OKAY)

/-- USB traffic the engine generates, for stating where transfers happen. -/
inductive UsbEvent
  | outCmd (text : Str)
  | inPkt (raw : Str)
  | outChunk (size : Nat)
deriving DecidableEq

/-- The errors the engine throws. -/
inductive EngineErr
  | busy
  | usbStall
  | invalidPacket (msg : Str)
  | deviceFail (msg : Option Str)
  | transferOverflow (hex : Str)
  | wrongResponse (st : Status)
  | lengthMismatch (got : Option Int) (want : Nat)
deriving DecidableEq

/-- Which engine errors are `FastbootDeviceError`s in `flasher.ts`. -/
def isDeviceError : EngineErr → Bool
  | .deviceFail _ => true
  | .transferOverflow _ => true
  | .wrongResponse _ => true
  | .lengthMismatch _ _ => true
  | _ => false

/-- `getPackets` of `flasher.ts`: read and decode one inbound transfer at a
time (the oracle list supplies the raw transfer texts), append each decoded
packet to the current session, and stop after the first packet whose status
is neither INFO nor TEXT.  The state is returned even when an error is
thrown, since the TS object is mutated in place. -/
def getPackets (st : EngineState) :
    List Str → EngineState × List UsbEvent × Except EngineErr (ResponsePacket × List Str)
  | [] => (st, [], .error .usbStall)
  | raw :: rest =>
    match decodePacket raw with
    | .error e => (st, [.inPkt raw], .error (.invalidPacket e))
    | .ok r =>
      let st1 := pushPacket st (.response r)
      if r.status = .INFO ∨ r.status = .TEXT then
        let k := getPackets st1 rest
        (k.1, .inPkt raw :: k.2.1, k.2.2)
      else (st1, [.inPkt raw], .ok (r, rest))

/-- `sendCommand` of `flasher.ts`: push the command packet, write it to the
OUT endpoint, drain responses with `getPackets`; if the last packet is FAIL,
set the session status to FAIL and throw a `FastbootDeviceError`, otherwise
return the terminal packet. -/
def sendCommand (st : EngineState) (text : Str) (inp : List Str) :
    EngineState × List UsbEvent × Except EngineErr (ResponsePacket × List Str) :=
  let st1 := pushPacket st (.command text)
  let gp := getPackets st1 inp
  match gp.2.2 with
  | .error e => (gp.1, .outCmd text :: gp.2.1, .error e)
  | .ok (r, rest) =>
    if r.status = .FAIL then
      ({ gp.1 with session := { gp.1.session with status := some .FAIL } },
        .outCmd text :: gp.2.1, .error (.deviceFail r.message))
    else (gp.1, .outCmd text :: gp.2.1, .ok (r, rest))

/-- `exec` of `flasher.ts`: throw `busy` if the current session is active;
otherwise archive the current session, start a fresh one and run
`sendCommand`.  (The `connect()` call touches only the USB device, not the
session state.) -/
def exec (st : EngineState) (cmd : Str) (inp : List Str) :
    EngineState × List UsbEvent × Except EngineErr (ResponsePacket × List Str) :=
  if isActive st.session then (st, [], .error .busy)
  else
    sendCommand { session := freshSession, sessions := st.sessions ++ [st.session] } cmd inp

/-- Fuel-based worker for `chunkSizes`. -/
def chunkSizesAux (fuel : Nat) (n : Nat) : List Nat :=
  match fuel with
  | 0 => []
  | fuel + 1 =>
    if n = 0 then []
    else min 16384 n :: chunkSizesAux fuel (n - min 16384 n)

/-- Payload chunk sizes of `transferData`'s while loop: 16384-byte slices
until the buffer is exhausted. -/
def chunkSizes (n : Nat) : List Nat := chunkSizesAux n n

/-- `transferData` of `flasher.ts` over a buffer of `len` bytes: encode the
length as 8 hex digits (throw a `FastbootDeviceError` on overflow before any
transfer), send `download:{hex}`, require a DATA response whose
`dataLength` equals `len`, stream the chunks, then drain trailing
responses. -/
def transferData (st : EngineState) (len : Nat) (inp : List Str) :
    EngineState × List UsbEvent × Except EngineErr Unit :=
  let xferHex := padStart8 (natToHex len)
  if xferHex.length ≠ 8 then (st, [], .error (.transferOverflow xferHex))
  else
    let sc := sendCommand st (str "download:" ++ xferHex) inp
    match sc.2.2 with
    | .error e => (sc.1, sc.2.1, .error e)
    | .ok (r, rest) =>
      if r.status ≠ .DATA then (sc.1, sc.2.1, .error (.wrongResponse r.status))
      else if r.dataLength ≠ some (len : Int) then
        (sc.1, sc.2.1, .error (.lengthMismatch r.dataLength len))
      else
        let gp := getPackets sc.1 rest
        match gp.2.2 with
        | .error e => (gp.1, sc.2.1 ++ (chunkSizes len).map .outChunk ++ gp.2.1, .error e)
        | .ok _ => (gp.1, sc.2.1 ++ (chunkSizes len).map .outChunk ++ gp.2.1, .ok ())

/-- The session states reachable by running engine operations from the
freshly constructed device. -/
inductive Reachable : EngineState → Prop
  | init : Reachable initialEngine
  | stepExec {st : EngineState} (cmd : Str) (inp : List Str) :
      Reachable st → Reachable (exec st cmd inp).1
  | stepSend {st : EngineState} (cmd : Str) (inp : List Str) :
      Reachable st → Reachable (sendCommand st cmd inp).1
  | stepTransfer {st : EngineState} (len : Nat) (inp : List Str) :
      Reachable st → Reachable (transferData st len inp).1
  | stepDrain {st : EngineState} (inp : List Str) :
      Reachable st → Reachable (getPackets st inp).1

/-- Outcome of one `reconnect()` call, supplied by an oracle: it resolves
`true`, throws `FastbootUsbConnectionError`, or throws some other error. -/
inductive ReconnectOutcome
  | success
  | connErr
  | otherErr (tag : Nat)
deriving DecidableEq

/-- Observable steps of `waitForReconnect`. -/
inductive WfrEvent
  | loggerCallTypeError
  | attemptReconnect
  | sleepMs (ms : Nat)
  | waitConnectEvent
deriving DecidableEq

/-- How a `waitForReconnect()` call ends. -/
inductive WfrResult
  | resolved (b : Bool)
  | returnedUndefined
  | thrown (tag : Nat)
  | rejectedConn
  | rejectedOther (tag : Nat)
deriving DecidableEq

/-- `waitForReconnect` of `flasher.ts`, with `oracle i` the outcome the
`i`-th actual `reconnect()` call would have.  The first tier executes
`this.logger("waitForReconnect try reconnect()")`: `logger` is an object
with a `log` method, not a function, so this throws a TypeError *before*
`reconnect()` is called; the tier-1 catch swallows any error and sleeps 3 s.
Tier 2 rethrows non-connection errors; tier 3's catch has no else branch, so
a non-connection error there falls through and the function returns
undefined. -/
def waitForReconnect (oracle : Nat → ReconnectOutcome) : List WfrEvent × WfrResult :=
  let evs1 : List WfrEvent := [.loggerCallTypeError, .sleepMs 3000]
  match oracle 0 with
  | .success => (evs1 ++ [.attemptReconnect], .resolved true)
  | .otherErr t => (evs1 ++ [.attemptReconnect], .thrown t)
  | .connErr =>
    let evs2 := evs1 ++ [.attemptReconnect, .sleepMs 30000]
    match oracle 1 with
    | .success => (evs2 ++ [.attemptReconnect], .resolved true)
    | .otherErr _ => (evs2 ++ [.attemptReconnect], .returnedUndefined)
    | .connErr =>
      let evs3 := evs2 ++ [.attemptReconnect, .waitConnectEvent]
      match oracle 2 with
      | .success => (evs3 ++ [.attemptReconnect], .resolved true)
      | .connErr => (evs3 ++ [.attemptReconnect], .rejectedConn)
      | .otherErr t => (evs3 ++ [.attemptReconnect], .rejectedOther t)

/-- The endpoint `setup()`'s loop leaves in a direction's field: the last
endpoint with that direction, since later assignments overwrite earlier
ones. -/
def lastWithDirection (eps : List Endpoint) (d : Str) : Option Endpoint :=
  (eps.filter (fun e => e.direction = d)).getLast?

/-- A session status the code can produce: never OKAY. -/
def sessionStatusOk (s : FastbootSession) : Prop :=
  s.status = none ∨ s.status = some .FAIL

/-- Lowercase hexadecimal digit recognizer (what `toString(16)` emits). -/
def isLowerHexDigit (c : Char) : Bool :=
  ('0' ≤ c && c ≤ '9') || ('a' ≤ c && c ≤ 'f')

/-! ## Helper lemmas -/

theorem takeWhile_of_all {p : Char → Bool} :
    ∀ l : Str, (∀ c ∈ l, p c = true) → l.takeWhile p = l := by
  intro l
  induction l with
  | nil => intro _; rfl
  | cons c t ih =>
    intro h
    simp [List.takeWhile_cons, h c (List.mem_cons_self c t),
      ih fun x hx => h x (List.mem_cons_of_mem c hx)]

theorem isHexDigit_toNat {c : Char} (h : isHexDigit c = true) :
    (48 ≤ c.val.toNat ∧ c.val.toNat ≤ 57) ∨ (97 ≤ c.val.toNat ∧ c.val.toNat ≤ 102) ∨
    (65 ≤ c.val.toNat ∧ c.val.toNat ≤ 70) := by
  simp only [isHexDigit, Bool.or_eq_true, Bool.and_eq_true, decide_eq_true_eq] at h
  rcases h with (⟨h1, h2⟩ | ⟨h1, h2⟩) | ⟨h1, h2⟩
  · exact Or.inl ⟨h1, h2⟩
  · exact Or.inr (Or.inl ⟨h1, h2⟩)
  · exact Or.inr (Or.inr ⟨h1, h2⟩)

theorem hex_not_ws {c : Char} (h : isHexDigit c = true) : isJsWs c = false := by
  have hv := isHexDigit_toNat h
  simp only [isJsWs, Bool.or_eq_false_iff, decide_eq_false_iff_not, Bool.and_eq_false_iff]
  refine ⟨⟨⟨⟨⟨⟨⟨⟨⟨⟨⟨⟨⟨⟨?_, ?_⟩, ?_⟩, ?_⟩, ?_⟩, ?_⟩, ?_⟩, ?_⟩, ?_⟩, ?_⟩, ?_⟩, ?_⟩, ?_⟩, ?_⟩, ?_⟩
    <;> first
      | (intro he; subst he; revert hv; decide)
      | (refine Or.inl fun h1 => ?_
         have n1 : 8192 ≤ c.val.toNat := h1
         omega)

theorem hex_not_sign {c : Char} (h : isHexDigit c = true) : c ≠ '-' ∧ c ≠ '+' := by
  have hv := isHexDigit_toNat h
  constructor <;> (intro he; subst he; revert hv; decide)

theorem hex_not_mark {c : Char} (h : isHexDigit c = true) : c ≠ 'x' ∧ c ≠ 'X' := by
  have hv := isHexDigit_toNat h
  constructor <;> (intro he; subst he; revert hv; decide)

theorem parseIntHex_of_hex {l : Str} (hne : l ≠ [])
    (hall : ∀ c ∈ l, isHexDigit c = true) :
    parseIntHex l = some (hexValue l : Int) := by
  obtain ⟨c, t, rfl⟩ : ∃ c t, l = c :: t := by
    cases l with
    | nil => exact absurd rfl hne
    | cons c t => exact ⟨c, t, rfl⟩
  have hc : isHexDigit c = true := hall c (List.mem_cons_self c t)
  have hdrop : (c :: t).dropWhile isJsWs = c :: t := by
    rw [List.dropWhile_cons, hex_not_ws hc]
    simp
  have hsign : splitSign (c :: t) = (false, c :: t) := by
    simp [splitSign, (hex_not_sign hc).1, (hex_not_sign hc).2]
  have hmark : stripHexMark (c :: t) = c :: t := by
    cases t with
    | nil => rfl
    | cons c1 t1 =>
      have hc1 : isHexDigit c1 = true := hall c1 (by simp)
      simp [stripHexMark, (hex_not_mark hc1).1, (hex_not_mark hc1).2]
  have htake : (c :: t).takeWhile isHexDigit = c :: t := takeWhile_of_all _ hall
  simp only [parseIntHex, hdrop, hsign, hmark, htake]
  simp

theorem jsNumToStr_nat (n : Nat) : jsNumToStr (some (n : Int)) = natToDec n := by
  simp [jsNumToStr]

/-! ## C1: `getPacket` decoding -/

/-- C1 (amended): `getPacket` decodes the first 4 characters as the status;
for TEXT, FAIL and OKAY the message is the trimmed remainder, for INFO it is
the trimmed remainder prefixed with the bootloader tag; for DATA the 8
characters after the status parse as a big-endian hexadecimal byte count;
any other 4-character prefix throws an `invalid packet` protocol error. -/
theorem fb_C1_getPacket_decode (s : Str) :
    (s.take 4 = str "OKAY" →
      decodePacket s = .ok { status := .OKAY, message := some (jsTrim (s.drop 4)) }) ∧
    (s.take 4 = str "TEXT" →
      decodePacket s = .ok { status := .TEXT, message := some (jsTrim (s.drop 4)) }) ∧
    (s.take 4 = str "FAIL" →
      decodePacket s = .ok { status := .FAIL, message := some (jsTrim (s.drop 4)) }) ∧
    (s.take 4 = str "INFO" →
      decodePacket s =
        .ok { status := .INFO, message := some (bootloaderTag ++ jsTrim (s.drop 4)) }) ∧
    (s.take 4 = str "DATA" → (s.drop 4).take 8 ≠ [] →
      (∀ c ∈ (s.drop 4).take 8, isHexDigit c = true) →
      decodePacket s =
        .ok { status := .DATA,
              dataLength := some (hexValue ((s.drop 4).take 8) : Int),
              message := some (str "ready to transfer " ++
                natToDec (hexValue ((s.drop 4).take 8)) ++ str " bytes") }) ∧
    (s.take 4 ≠ str "OKAY" → s.take 4 ≠ str "TEXT" → s.take 4 ≠ str "FAIL" →
      s.take 4 ≠ str "INFO" → s.take 4 ≠ str "DATA" →
      decodePacket s = .error (str "invalid packet: " ++ s)) := by
  have eOI : ¬(str "OKAY" = str "INFO") := by decide
  have eOT : ¬(str "OKAY" = str "TEXT") := by decide
  have eOF : ¬(str "OKAY" = str "FAIL") := by decide
  have eTI : ¬(str "TEXT" = str "INFO") := by decide
  have eFI : ¬(str "FAIL" = str "INFO") := by decide
  have eFT : ¬(str "FAIL" = str "TEXT") := by decide
  have eDI : ¬(str "DATA" = str "INFO") := by decide
  have eDT : ¬(str "DATA" = str "TEXT") := by decide
  have eDF : ¬(str "DATA" = str "FAIL") := by decide
  have eDO : ¬(str "DATA" = str "OKAY") := by decide
  refine ⟨?_, ?_, ?_, ?_, ?_, ?_⟩
  · intro h; simp [decodePacket, h, eOI, eOT, eOF]
  · intro h; simp [decodePacket, h, eTI]
  · intro h; simp [decodePacket, h, eFI, eFT]
  · intro h; simp [decodePacket, h]
  · intro h hne hall
    have hp := parseIntHex_of_hex hne hall
    simp [decodePacket, h, eDI, eDT, eDF, eDO, hp, jsNumToStr_nat]
  · intro h1 h2 h3 h4 h5
    simp [decodePacket, h1, h2, h3, h4, h5]

/-- C1 counterexample: on the transfer text `INFOfoo` the code returns the
message `(bootloader)  foo`, not the trimmed remainder `foo` that the claim
asserts for INFO packets. -/
theorem fb_C1_cex :
    decodedMessage (decodePacket (str "INFOfoo")) = some (str "(bootloader)  foo") ∧
    jsTrim ((str "INFOfoo").drop 4) = str "foo" ∧
    decodedMessage (decodePacket (str "INFOfoo")) ≠ some (jsTrim ((str "INFOfoo").drop 4)) := by
  refine ⟨by decide, by decide, by decide⟩

/-! ## C6: `parseInstructions` -/

theorem mapM_error_of_mem {α β : Type} (f : α → Except Str β) :
    ∀ (l : List α) (x : α), x ∈ l → ∀ e, f x = .error e →
      ∃ e', l.mapM f = .error e' := by
  intro l
  induction l with
  | nil => intro x hx; cases hx
  | cons a t ih =>
    intro x hx e hfe
    rcases List.mem_cons.mp hx with rfl | hxt
    · exact ⟨e, by rw [List.mapM_cons, hfe]; rfl⟩
    · cases hfa : f a with
      | error e2 => exact ⟨e2, by rw [List.mapM_cons, hfa]; rfl⟩
      | ok b =>
        obtain ⟨e', he'⟩ := ih x hxt e hfe
        refine ⟨e', ?_⟩
        rw [List.mapM_cons, hfa]
        show t.mapM f >>= _ = _
        rw [he']
        rfl

theorem filter_chain_nil {L : List Str}
    (h : ∀ l ∈ L, jsTrim l = [] ∨ (jsTrim l).head? = some '#') :
    ((L.map jsTrim).filter (· ≠ [])).filter (fun x => x.head? ≠ some '#') = [] := by
  induction L with
  | nil => rfl
  | cons a t ih =>
    have ht := ih fun x hx => h x (List.mem_cons_of_mem a hx)
    rcases h a (List.mem_cons_self a t) with ha | ha
    · have h1 : (decide (jsTrim a ≠ [])) = false := by simp [ha]
      simp only [List.map_cons, List.filter_cons, h1]
      simpa using ht
    · by_cases hz : jsTrim a = []
      · have h1 : (decide (jsTrim a ≠ [])) = false := by simp [hz]
        simp only [List.map_cons, List.filter_cons, h1]
        simpa using ht
      · have h1 : (decide (jsTrim a ≠ [])) = true := by simp [hz]
        have h2 : (decide ((jsTrim a).head? ≠ some '#')) = false := by simp [ha]
        simp only [List.map_cons, List.filter_cons, h1, if_true, h2]
        simpa using ht

/-- C6 (confirmed): `parseInstructions` splits the script on newlines, trims
each line, drops blank lines and lines starting with `#`, and parses each
remaining line; a script of only blank and comment lines yields the empty
instruction list; one failing line fails the whole call. -/
theorem fb_C6_parseInstructions (text : Str) :
    (parseInstructions text =
      (((splitOnPred (· = '\n') text).map jsTrim |>.filter (· ≠ [])
        |>.filter (fun x => x.head? ≠ some '#')).mapM parseInstruction)) ∧
    ((∀ l ∈ splitOnPred (· = '\n') text, jsTrim l = [] ∨ (jsTrim l).head? = some '#') →
      parseInstructions text = .ok []) ∧
    (∀ l ∈ ((splitOnPred (· = '\n') text).map jsTrim |>.filter (· ≠ [])
        |>.filter (fun x => x.head? ≠ some '#')),
      ∀ e, parseInstruction l = .error e →
        ∃ e', parseInstructions text = .error e') := by
  refine ⟨rfl, ?_, ?_⟩
  · intro h
    rw [parseInstructions, filter_chain_nil h]
    rfl
  · intro l hl e he
    exact mapM_error_of_mem parseInstruction _ l hl e he

/-! ## C7: unknown options -/

theorem stepWord_ignored {t : Str} (st : PState)
    (h0 : t.head? = some '-')
    (h1 : t ≠ str "-w") (h2 : t ≠ str "--wipe")
    (h3 : t ≠ str "--set-active=other") (h4 : t ≠ str "--set-active=a")
    (h5 : t ≠ str "--set-active=b") (h6 : t ≠ str "--slot-other")
    (h7 : t.take 6 ≠ str "--slot")
    (h8 : t ≠ str "--skip-reboot") (h9 : t ≠ str "--apply-vbmeta") :
    stepWord st t = .ok st := by
  simp [stepWord, h0, h1, h2, h3, h4, h5, h6, h7, h8, h9]

theorem parseWords_skip {t : Str}
    (h0 : t.head? = some '-')
    (h1 : t ≠ str "-w") (h2 : t ≠ str "--wipe")
    (h3 : t ≠ str "--set-active=other") (h4 : t ≠ str "--set-active=a")
    (h5 : t ≠ str "--set-active=b") (h6 : t ≠ str "--slot-other")
    (h7 : t.take 6 ≠ str "--slot")
    (h8 : t ≠ str "--skip-reboot") (h9 : t ≠ str "--apply-vbmeta")
    (ws1 ws2 : List Str) :
    parseWords (ws1 ++ t :: ws2) = parseWords (ws1 ++ ws2) := by
  have key : (ws1 ++ t :: ws2).foldlM stepWord ({} : PState) =
      (ws1 ++ ws2).foldlM stepWord ({} : PState) := by
    rw [List.foldlM_append, List.foldlM_append]
    cases hfold : ws1.foldlM stepWord ({} : PState) with
    | error e => rfl
    | ok st =>
      show (t :: ws2).foldlM stepWord st = ws2.foldlM stepWord st
      show stepWord st t >>= _ = _
      rw [stepWord_ignored st h0 h1 h2 h3 h4 h5 h6 h7 h8 h9]
      rfl
  rw [parseWords, parseWords, key]

/-- A token whose first 6 characters are `--slot` starts with `-` and cannot
be any of the other recognized option spellings. -/
theorem slotToken_shape {t : Str} (htake : t.take 6 = str "--slot") :
    t.head? = some '-' ∧ t ≠ str "-w" ∧ t ≠ str "--wipe" ∧
    t ≠ str "--set-active=other" ∧ t ≠ str "--set-active=a" ∧
    t ≠ str "--set-active=b" := by
  have hshape : t = str "--slot" ++ t.drop 6 := by
    conv_lhs => rw [← List.take_append_drop 6 t]
    rw [htake]
  refine ⟨by rw [hshape]; rfl, ?_, ?_, ?_, ?_, ?_⟩ <;> (rw [hshape]; simp [str])

/-- C7 (amended): a whitespace token beginning with `-` that is none of the
recognized option spellings *and does not begin with the 6 characters
`--slot`* is ignored: `parseInstruction`'s word loop leaves its state
unchanged, so the parse equals the parse with the token removed.  A token
that does begin with `--slot` (other than `--slot-other`) is the one
exception the code enforces: a missing or empty value after `=` throws the
`--slot requires a value` `ParseError`, and an unrecognized value throws the
`unknown slot` `ParseError`, instead of being ignored. -/
theorem fb_C7_unknown_options (ws1 ws2 : List Str) (t : Str) :
    (t.head? = some '-' →
      t ∉ [str "-w", str "--wipe", str "--set-active=other", str "--set-active=a",
        str "--set-active=b", str "--slot-other", str "--skip-reboot",
        str "--apply-vbmeta"] →
      t.take 6 ≠ str "--slot" →
      parseWords (ws1 ++ t :: ws2) = parseWords (ws1 ++ ws2)) ∧
    (t.take 6 = str "--slot" → t ≠ str "--slot-other" →
      (splitOnPred (· = '=') t).get? 1 = none ∨
        (splitOnPred (· = '=') t).get? 1 = some [] →
      ∀ st : PState, stepWord st t = .error (str "--slot requires a value")) ∧
    (∀ v : Str, t.take 6 = str "--slot" → t ≠ str "--slot-other" →
      (splitOnPred (· = '=') t).get? 1 = some v → v ≠ [] →
      v ∉ [str "current", str "other", str "a", str "b"] →
      ∀ st : PState, stepWord st t = .error (str "unknown slot: " ++ v)) := by
  refine ⟨?_, ?_, ?_⟩
  · intro h0 hmem h7
    simp only [List.mem_cons, List.not_mem_nil, or_false, not_or] at hmem
    obtain ⟨h1, h2, h3, h4, h5, h6, h8, h9⟩ := hmem
    exact parseWords_skip h0 h1 h2 h3 h4 h5 h6 h7 h8 h9 ws1 ws2
  · intro htake h6 hv st
    obtain ⟨h0, h1, h2, h3, h4, h5⟩ := slotToken_shape htake
    rcases hv with hv | hv <;>
      (simp only [List.get?_eq_getElem?] at hv
       simp [stepWord, h0, h1, h2, h3, h4, h5, h6, htake, hv])
  · intro v htake h6 hv hvne hvmem st
    obtain ⟨h0, h1, h2, h3, h4, h5⟩ := slotToken_shape htake
    simp only [List.mem_cons, List.not_mem_nil, or_false, not_or] at hvmem
    obtain ⟨hv1, hv2, hv3, hv4⟩ := hvmem
    simp only [List.get?_eq_getElem?] at hv
    simp [stepWord, h0, h1, h2, h3, h4, h5, h6, htake, hv, hvne, hv1, hv2, hv3, hv4]

/-- C7 counterexample: `--slot=z` begins with `-` and is not one of the
recognized options, yet `parseInstruction` fails on it; with the token
removed the same line parses. -/
theorem fb_C7_cex :
    parseInstruction (str "getvar x --slot=z") = .error (str "unknown slot: z") ∧
    parseInstruction (str "getvar x") =
      .ok { command := .getvar, args := [str "x"], options := {} } := by
  refine ⟨by decide, by decide⟩

/-! ## C8: archive-entry lookups -/

/-- C8 (amended): `getEntry` — used for `flash-all.sh`, for `flash` image
files, and for the nested `update` archive — matches against each entry's
basename and fails when no basename matches; but the `fastboot-info.txt`
lookup inside the nested archive compares the *full* entry name, not the
basename. -/
theorem fb_C8_entry_lookup (entries nested : List FileEntry) (fname : Str)
    (e : FileEntry) :
    (getEntry entries fname = .ok e → e ∈ entries ∧ basename e.filename = fname) ∧
    ((∀ x ∈ entries, basename x.filename ≠ fname) →
      getEntry entries fname = .error (fname ++ str " not found in zip")) ∧
    (locateFlashAllSh entries = getEntry entries (str "flash-all.sh")) ∧
    (locateFlashImage entries fname = getEntry entries fname) ∧
    (locateNestedArchive entries fname = getEntry entries fname) ∧
    (locateFastbootInfo nested = some e → e.filename = str "fastboot-info.txt") ∧
    ((∀ x ∈ nested, x.filename ≠ str "fastboot-info.txt") →
      locateFastbootInfo nested = none) := by
  refine ⟨?_, ?_, rfl, rfl, rfl, ?_, ?_⟩
  · intro h
    cases hf : entries.find? (fun x => basename x.filename = fname) with
    | none => rw [getEntry, hf] at h; cases h
    | some e' =>
      rw [getEntry, hf] at h
      cases h
      refine ⟨List.mem_of_find?_eq_some hf, ?_⟩
      have := List.find?_some hf
      simpa using this
  · intro h
    rw [getEntry]
    have hf : entries.find? (fun x => basename x.filename = fname) = none := by
      rw [List.find?_eq_none]
      intro x hx
      simp [h x hx]
    rw [hf]
  · intro h
    have := List.find?_some h
    simpa using this
  · intro h
    rw [locateFastbootInfo, List.find?_eq_none]
    intro x hx
    simp [h x hx]

/-- C8 counterexample: a nested archive whose only entry is
`sub/fastboot-info.txt` — its basename is `fastboot-info.txt`, and the
basename matcher `getEntry` finds it, but the orchestrator's full-name
lookup returns nothing, so the `update` step fails. -/
theorem fb_C8_cex :
    locateFastbootInfo [{ filename := str "sub/fastboot-info.txt" }] = none ∧
    basename (str "sub/fastboot-info.txt") = str "fastboot-info.txt" ∧
    getEntry [{ filename := str "sub/fastboot-info.txt" }] (str "fastboot-info.txt") =
      .ok { filename := str "sub/fastboot-info.txt" } := by
  refine ⟨by decide, by decide, by decide⟩


/-! ## C9: device binding -/

theorem setupEndpoints_ok {eps : List Endpoint} {a : EndpointAssignment}
    (h : setupEndpoints eps = .ok a) :
    eps.length = 2 ∧ (∀ ep ∈ eps, ep.direction = str "in" ∨ ep.direction = str "out") ∧
    a.inEp = lastWithDirection eps (str "in") ∧
    a.outEp = lastWithDirection eps (str "out") := by
  have hio : ¬(str "in" = str "out") := by decide
  have hoi : ¬(str "out" = str "in") := by decide
  by_cases hl : eps.length = 2
  · obtain ⟨x, y, rfl⟩ := List.length_eq_two.mp hl
    rw [setupEndpoints] at h
    simp only [List.length_cons, List.length_nil] at h
    rw [if_neg (by omega)] at h
    refine ⟨rfl, ?_⟩
    by_cases hx1 : x.direction = str "in" <;> by_cases hy1 : y.direction = str "in"
    · simp [List.foldlM, bind, Except.bind, pure, Except.pure, hx1, hy1] at h
      subst h
      refine ⟨?_, by simp [lastWithDirection, hx1, hy1],
        by simp [lastWithDirection, hx1, hy1, hio]⟩
      intro ep hep
      rcases List.mem_cons.mp hep with rfl | hep
      · exact Or.inl hx1
      rcases List.mem_cons.mp hep with rfl | hep
      · exact Or.inl hy1
      cases hep
    · by_cases hy2 : y.direction = str "out"
      · simp [List.foldlM, bind, Except.bind, pure, Except.pure, hx1, hy1, hy2, hoi] at h
        subst h
        refine ⟨?_, by simp [lastWithDirection, hx1, hy1, hoi],
          by simp [lastWithDirection, hx1, hy2, hio]⟩
        intro ep hep
        rcases List.mem_cons.mp hep with rfl | hep
        · exact Or.inl hx1
        rcases List.mem_cons.mp hep with rfl | hep
        · exact Or.inr hy2
        cases hep
      · simp [List.foldlM, bind, Except.bind, pure, Except.pure, hx1, hy1, hy2, hio, hoi] at h
    · by_cases hx2 : x.direction = str "out"
      · simp [List.foldlM, bind, Except.bind, pure, Except.pure, hx1, hx2, hy1, hio, hoi] at h
        subst h
        refine ⟨?_, by simp [lastWithDirection, hx2, hy1, hoi],
          by simp [lastWithDirection, hx2, hy1, hio]⟩
        intro ep hep
        rcases List.mem_cons.mp hep with rfl | hep
        · exact Or.inr hx2
        rcases List.mem_cons.mp hep with rfl | hep
        · exact Or.inl hy1
        cases hep
      · simp [List.foldlM, bind, Except.bind, pure, Except.pure, hx1, hx2, hio, hoi] at h
    · by_cases hx2 : x.direction = str "out" <;> by_cases hy2 : y.direction = str "out"
      · simp [List.foldlM, bind, Except.bind, pure, Except.pure, hx1, hx2, hy1, hy2, hoi] at h
        subst h
        refine ⟨?_, by simp [lastWithDirection, hx1, hy1, hoi],
          by simp [lastWithDirection, hx2, hy2, hio]⟩
        intro ep hep
        rcases List.mem_cons.mp hep with rfl | hep
        · exact Or.inr hx2
        rcases List.mem_cons.mp hep with rfl | hep
        · exact Or.inr hy2
        cases hep
      · simp [List.foldlM, bind, Except.bind, pure, Except.pure, hx1, hx2, hy1, hy2, hio,
          hoi] at h
      · simp [List.foldlM, bind, Except.bind, pure, Except.pure, hx1, hx2, hio, hoi] at h
      · simp [List.foldlM, bind, Except.bind, pure, Except.pure, hx1, hx2, hio, hoi] at h
  · rw [setupEndpoints, if_pos hl] at h
    cases h

/-- C9 (amended): binding fails when the serial identity is missing or
empty, or when the endpoint count is not 2, or when some endpoint's
direction string is neither `in` nor `out`; but *two endpoints of the same
direction are accepted without error* — the loop stores the later one and
leaves the other field unassigned — so an ambiguous IN/OUT split is not
rejected.  On success the binding stores the serial identity and, for each
direction, the last endpoint carrying it. -/
theorem fb_C9_bind (d : DeviceInfo) (b : Binding) :
    ((d.serialNumber = none ∨ d.serialNumber = some []) →
      bindDevice d = .error (str "Access to USBDevice#serialNumber is necessary")) ∧
    (∀ sn, d.serialNumber = some sn → sn ≠ [] → d.endpoints.length ≠ 2 →
      bindDevice d = .error (str "USB Interface must have only 2 endpoints")) ∧
    (bindDevice d = .ok b →
      d.serialNumber = some b.serialNumber ∧ b.serialNumber ≠ [] ∧
      d.endpoints.length = 2 ∧
      (∀ ep ∈ d.endpoints, ep.direction = str "in" ∨ ep.direction = str "out") ∧
      b.inEp = lastWithDirection d.endpoints (str "in") ∧
      b.outEp = lastWithDirection d.endpoints (str "out")) := by
  refine ⟨?_, ?_, ?_⟩
  · rintro (hs | hs) <;> simp [bindDevice, hs]
  · intro sn hs hsn hl
    simp only [bindDevice, hs]
    rw [if_neg hsn, setupEndpoints, if_pos hl]
  · intro h
    cases hs : d.serialNumber with
    | none => simp only [bindDevice, hs] at h; cases h
    | some sn =>
      simp only [bindDevice, hs] at h
      by_cases hsn : sn = []
      · rw [if_pos hsn] at h; cases h
      · rw [if_neg hsn] at h
        cases hset : setupEndpoints d.endpoints with
        | error e => rw [hset] at h; cases h
        | ok a =>
          rw [hset] at h
          cases h
          obtain ⟨hlen, hdir, hin, hout⟩ := setupEndpoints_ok hset
          exact ⟨rfl, hsn, hlen, hdir, hin, hout⟩

/-- C9 counterexample: a device whose interface has two IN endpoints — the
directions are ambiguous (no OUT endpoint), yet the constructor succeeds,
storing the second IN endpoint and leaving the OUT endpoint unassigned,
where the claim demands a `SetupError`. -/
theorem fb_C9_cex :
    bindDevice
      { serialNumber := some (str "SER1"),
        endpoints := [{ direction := str "in", endpointNumber := 1 },
                      { direction := str "in", endpointNumber := 2 }] } =
    .ok { serialNumber := str "SER1",
          inEp := some { direction := str "in", endpointNumber := 2 },
          outEp := none } := by decide


/-! ## Engine frame lemmas -/

theorem getPackets_frame : ∀ (inp : List Str) (st : EngineState),
    (getPackets st inp).1.sessions = st.sessions ∧
    (getPackets st inp).1.session.status = st.session.status := by
  intro inp
  induction inp with
  | nil => intro st; exact ⟨rfl, rfl⟩
  | cons raw rest ih =>
    intro st
    cases hd : decodePacket raw with
    | error e =>
      simp only [getPackets, hd]
      exact ⟨by trivial, by trivial⟩
    | ok r =>
      by_cases hst : r.status = Status.INFO ∨ r.status = Status.TEXT
      · simp only [getPackets, hd, if_pos hst]
        exact ih (pushPacket st (.response r))
      · simp only [getPackets, hd, if_neg hst]
        exact ⟨by trivial, by trivial⟩

theorem getPackets_events : ∀ (inp : List Str) (st : EngineState),
    ∀ ev ∈ (getPackets st inp).2.1, ∃ raw, ev = .inPkt raw := by
  intro inp
  induction inp with
  | nil => intro st ev hev; cases hev
  | cons raw rest ih =>
    intro st ev hev
    cases hd : decodePacket raw with
    | error e =>
      simp only [getPackets, hd, List.mem_singleton] at hev
      exact ⟨raw, hev⟩
    | ok r =>
      by_cases hst : r.status = Status.INFO ∨ r.status = Status.TEXT
      · simp only [getPackets, hd, if_pos hst, List.mem_cons] at hev
        rcases hev with rfl | h
        · exact ⟨raw, rfl⟩
        · exact ih (pushPacket st (.response r)) ev h
      · simp only [getPackets, hd, if_neg hst, List.mem_singleton] at hev
        exact ⟨raw, hev⟩

theorem sendCommand_frame (st : EngineState) (t : Str) (inp : List Str) :
    (sendCommand st t inp).1.sessions = st.sessions ∧
    ((sendCommand st t inp).1.session.status = st.session.status ∨
      (sendCommand st t inp).1.session.status = some .FAIL) := by
  have hf := getPackets_frame inp (pushPacket st (.command t))
  cases hres : (getPackets (pushPacket st (.command t)) inp).2.2 with
  | error e =>
    simp only [sendCommand, hres]
    exact ⟨hf.1, Or.inl hf.2⟩
  | ok pr =>
    obtain ⟨r, rest⟩ := pr
    by_cases hr : r.status = .FAIL
    · simp only [sendCommand, hres, if_pos hr]
      exact ⟨hf.1, Or.inr trivial⟩
    · simp only [sendCommand, hres, if_neg hr]
      exact ⟨hf.1, Or.inl hf.2⟩

theorem sendCommand_events (st : EngineState) (t : Str) (inp : List Str) :
    (sendCommand st t inp).2.1 =
      .outCmd t :: (getPackets (pushPacket st (.command t)) inp).2.1 := by
  cases hres : (getPackets (pushPacket st (.command t)) inp).2.2 with
  | error e => simp only [sendCommand, hres]
  | ok pr =>
    obtain ⟨r, rest⟩ := pr
    by_cases hr : r.status = .FAIL
    · simp only [sendCommand, hres, if_pos hr]
    · simp only [sendCommand, hres, if_neg hr]

theorem sendCommand_no_chunk (st : EngineState) (t : Str) (inp : List Str) :
    ∀ ev ∈ (sendCommand st t inp).2.1, ∀ k, ev ≠ .outChunk k := by
  intro ev hev k
  rw [sendCommand_events] at hev
  rcases List.mem_cons.mp hev with rfl | h
  · intro hc; cases hc
  · obtain ⟨raw, rfl⟩ := getPackets_events inp (pushPacket st (.command t)) ev h
    intro hc; cases hc

theorem transferData_frame (st : EngineState) (len : Nat) (inp : List Str) :
    (transferData st len inp).1.sessions = st.sessions ∧
    ((transferData st len inp).1.session.status = st.session.status ∨
      (transferData st len inp).1.session.status = some .FAIL) := by
  by_cases h8 : (padStart8 (natToHex len)).length ≠ 8
  · simp only [transferData, if_pos h8]
    exact ⟨trivial, Or.inl trivial⟩
  · have hf1 := sendCommand_frame st (str "download:" ++ padStart8 (natToHex len)) inp
    cases hres : (sendCommand st (str "download:" ++ padStart8 (natToHex len)) inp).2.2 with
    | error e =>
      simp only [transferData, if_neg h8, hres]
      exact hf1
    | ok pr =>
      obtain ⟨r, rest⟩ := pr
      by_cases hr : r.status ≠ .DATA
      · simp only [transferData, if_neg h8, hres, if_pos hr]
        exact hf1
      · by_cases hl : r.dataLength ≠ some (len : Int)
        · simp only [transferData, if_neg h8, hres, if_neg hr, if_pos hl]
          exact hf1
        · have hf2 := getPackets_frame rest
            (sendCommand st (str "download:" ++ padStart8 (natToHex len)) inp).1
          have hcomb :
              (getPackets (sendCommand st
                (str "download:" ++ padStart8 (natToHex len)) inp).1 rest).1.sessions =
                st.sessions ∧
              ((getPackets (sendCommand st
                (str "download:" ++ padStart8 (natToHex len)) inp).1 rest).1.session.status =
                  st.session.status ∨
                (getPackets (sendCommand st
                  (str "download:" ++ padStart8 (natToHex len)) inp).1 rest).1.session.status =
                  some .FAIL) := by
            refine ⟨hf2.1.trans hf1.1, ?_⟩
            rcases hf1.2 with h | h
            · exact Or.inl (hf2.2.trans h)
            · exact Or.inr (hf2.2.trans h)
          cases hres2 : (getPackets (sendCommand st
              (str "download:" ++ padStart8 (natToHex len)) inp).1 rest).2.2 with
          | error e =>
            simp only [transferData, if_neg h8, hres, if_neg hr, if_neg hl, hres2]
            exact hcomb
          | ok u =>
            simp only [transferData, if_neg h8, hres, if_neg hr, if_neg hl, hres2]
            exact hcomb

/-! ## C2: session lifecycle -/

/-- C2 (amended): `isActive` is false on an empty session, and after
appending a packet it is true exactly when that packet's status is neither
FAIL nor OKAY (a command packet's status is undefined, so it keeps the
session active); `exec` rejects an active session untouched, archives an
inactive one verbatim into the history, and no engine operation ever
rewrites the archived history.  The original claim's stronger clause — that
no engine operation ever appends to a terminated session — fails: a direct
`sendCommand`/`transferData` call appends to the current session whatever
its state (see the counterexample). -/
theorem fb_C2_session_lifecycle (o : Option TermStatus) (s : FastbootSession)
    (p : Packet) (st : EngineState) (cmd : Str) (inp : List Str) (len : Nat) :
    (isActive { status := o, packets := [] } = false) ∧
    (isActive { s with packets := s.packets ++ [p] } =
      !(packetStatus p = some .FAIL || packetStatus p = some .OKAY)) ∧
    (isActive st.session = true → exec st cmd inp = (st, [], .error .busy)) ∧
    (isActive st.session = false →
      (exec st cmd inp).1.sessions = st.sessions ++ [st.session]) ∧
    ((sendCommand st cmd inp).1.sessions = st.sessions) ∧
    ((getPackets st inp).1.sessions = st.sessions) ∧
    ((transferData st len inp).1.sessions = st.sessions) := by
  refine ⟨rfl, ?_, ?_, ?_, (sendCommand_frame st cmd inp).1,
    (getPackets_frame inp st).1, (transferData_frame st len inp).1⟩
  · simp [isActive]
  · intro h
    simp [exec, h]
  · intro h
    simp only [exec, h, Bool.false_eq_true, if_false]
    exact (sendCommand_frame _ cmd inp).1

/-- C2 counterexample: a session terminated by an OKAY packet (`isActive` is
false, two packets) is appended to again — four packets — by a direct
`sendCommand` on the same engine state, so a terminated session *is* mutated
by an engine operation. -/
theorem fb_C2_cex :
    isActive (exec initialEngine (str "getvar:product") [str "OKAYpixel"]).1.session
      = false ∧
    (exec initialEngine (str "getvar:product") [str "OKAYpixel"]).1.session.packets.length
      = 2 ∧
    (sendCommand (exec initialEngine (str "getvar:product") [str "OKAYpixel"]).1
        (str "getvar:serialno") [str "OKAYx"]).1.session.packets.length = 4 := by
  refine ⟨by decide, by decide, by decide⟩

/-! ## C4: `exec` contract -/

/-- C4 (confirmed): `exec` fails with the busy error — leaving the state
untouched and performing no USB traffic — whenever the current session is
active; otherwise it archives the current session at the end of the history
list, replaces it with a fresh session (status uninitialized, no packets),
and performs `sendCommand` from that state. -/
theorem fb_C4_exec_contract (st : EngineState) (cmd : Str) (inp : List Str) :
    (isActive st.session = true → exec st cmd inp = (st, [], .error .busy)) ∧
    (isActive st.session = false →
      exec st cmd inp =
        sendCommand { session := { status := none, packets := [] },
                      sessions := st.sessions ++ [st.session] } cmd inp) ∧
    (isActive st.session = false →
      (exec st cmd inp).1.sessions = st.sessions ++ [st.session]) := by
  refine ⟨?_, ?_, ?_⟩
  · intro h
    simp [exec, h]
  · intro h
    simp [exec, h, freshSession]
  · intro h
    simp only [exec, h, Bool.false_eq_true, if_false]
    exact (sendCommand_frame _ cmd inp).1

/-- C4 witness: both branches of `fb_C4_exec_contract` at concrete states —
an active one-packet session is rejected unchanged, and the initial inactive
session is archived. -/
theorem fb_C4_witness :
    exec { session := { status := none, packets := [.command (str "getvar:x")] },
           sessions := [] } (str "getvar:y") [] =
      ({ session := { status := none, packets := [.command (str "getvar:x")] },
         sessions := [] }, [], .error .busy) ∧
    (exec initialEngine (str "getvar:y") []).1.sessions = [freshSession] := by
  constructor
  · exact (fb_C4_exec_contract _ (str "getvar:y") []).1 (by decide)
  · exact (fb_C4_exec_contract initialEngine (str "getvar:y") []).2.2 (by decide)

/-! ## C10: session status is only ever FAIL or uninitialized -/

theorem sessionStatusOk_of_eq {x : FastbootSession} {o : Option TermStatus}
    (hx : x.status = o) (ho : o = none ∨ o = some .FAIL) : sessionStatusOk x := by
  unfold sessionStatusOk
  rw [hx]
  exact ho

/-- C10 (confirmed): in every reachable engine state, the current session's
status and every archived session's status is either uninitialized or FAIL —
no operation ever assigns OKAY. -/
theorem fb_C10_status_never_okay (st : EngineState) (h : Reachable st) :
    sessionStatusOk st.session ∧ ∀ s ∈ st.sessions, sessionStatusOk s := by
  induction h with
  | init => exact ⟨Or.inl rfl, by intro s hs; cases hs⟩
  | @stepExec st0 cmd inp h ih =>
    by_cases ha : isActive st0.session = true
    · simp only [exec, ha, if_true]
      exact ih
    · have ha' : isActive st0.session = false := by
        cases hb : isActive st0.session
        · rfl
        · exact absurd hb ha
      simp only [exec, ha', Bool.false_eq_true, if_false]
      have hf := sendCommand_frame
        { session := freshSession, sessions := st0.sessions ++ [st0.session] } cmd inp
      constructor
      · rcases hf.2 with hs | hs
        · exact sessionStatusOk_of_eq hs (Or.inl rfl)
        · exact sessionStatusOk_of_eq hs (Or.inr rfl)
      · intro s hs
        rw [hf.1] at hs
        rcases List.mem_append.mp hs with hs | hs
        · exact ih.2 s hs
        · rw [List.mem_singleton.mp hs]
          exact ih.1
  | @stepSend st0 cmd inp h ih =>
    have hf := sendCommand_frame st0 cmd inp
    constructor
    · rcases hf.2 with hs | hs
      · exact sessionStatusOk_of_eq hs ih.1
      · exact sessionStatusOk_of_eq hs (Or.inr rfl)
    · intro s hs
      rw [hf.1] at hs
      exact ih.2 s hs
  | @stepTransfer st0 len inp h ih =>
    have hf := transferData_frame st0 len inp
    constructor
    · rcases hf.2 with hs | hs
      · exact sessionStatusOk_of_eq hs ih.1
      · exact sessionStatusOk_of_eq hs (Or.inr rfl)
    · intro s hs
      rw [hf.1] at hs
      exact ih.2 s hs
  | @stepDrain st0 inp h ih =>
    have hf := getPackets_frame inp st0
    constructor
    · exact sessionStatusOk_of_eq hf.2 ih.1
    · intro s hs
      rw [hf.1] at hs
      exact ih.2 s hs

/-- C10 witness: the invariant at a concrete reachable state, one `exec`
whose command ended with an OKAY packet — its status stays uninitialized. -/
theorem fb_C10_witness :
    sessionStatusOk (exec initialEngine (str "getvar:product") [str "OKAYpixel"]).1.session ∧
    ∀ s ∈ (exec initialEngine (str "getvar:product") [str "OKAYpixel"]).1.sessions,
      sessionStatusOk s :=
  fb_C10_status_never_okay _ (.stepExec (str "getvar:product") [str "OKAYpixel"] .init)

/-! ## C3: `transferData` length negotiation -/

theorem hexDigitVal_hexDigitChar {d : Nat} (h : d < 16) :
    hexDigitVal (hexDigitChar d) = d := by
  interval_cases d <;> decide

theorem isLowerHexDigit_hexDigitChar {d : Nat} (h : d < 16) :
    isLowerHexDigit (hexDigitChar d) = true := by
  interval_cases d <;> decide

theorem hexValue_concat (l : Str) (c : Char) :
    hexValue (l ++ [c]) = 16 * hexValue l + hexDigitVal c := by
  simp [hexValue, List.foldl_append]

theorem natToHexAux_hexValue : ∀ fuel n, n < fuel → hexValue (natToHexAux fuel n) = n := by
  intro fuel
  induction fuel with
  | zero => intro n h; omega
  | succ fuel ih =>
    intro n h
    rw [natToHexAux]
    by_cases h16 : n < 16
    · rw [if_pos h16]
      have : hexValue [hexDigitChar n] = hexDigitVal (hexDigitChar n) := by
        simp [hexValue]
      rw [this, hexDigitVal_hexDigitChar h16]
    · rw [if_neg h16, hexValue_concat]
      have hfuel : n / 16 < fuel := by
        have := Nat.div_lt_self (by omega : 0 < n) (by omega : (1 : Nat) < 16)
        omega
      rw [ih (n / 16) hfuel, hexDigitVal_hexDigitChar (Nat.mod_lt n (by omega))]
      omega

theorem natToHex_hexValue (n : Nat) : hexValue (natToHex n) = n :=
  natToHexAux_hexValue (n + 1) n (by omega)

theorem hexValue_padStart8 (l : Str) : hexValue (padStart8 l) = hexValue l := by
  rw [padStart8, hexValue, List.foldl_append]
  have hz : List.foldl (fun acc c => 16 * acc + hexDigitVal c) 0
      (List.replicate (8 - l.length) '0') = 0 := by
    generalize 8 - l.length = k
    induction k with
    | zero => rfl
    | succ k ih =>
      rw [List.replicate_succ, List.foldl_cons]
      simpa using ih
  rw [hz]
  rfl

theorem natToHexAux_length_le : ∀ fuel n k, n < fuel → 0 < k → n < 16 ^ k →
    (natToHexAux fuel n).length ≤ k := by
  intro fuel
  induction fuel with
  | zero => intro n k h; omega
  | succ fuel ih =>
    intro n k h hk hnk
    rw [natToHexAux]
    by_cases h16 : n < 16
    · rw [if_pos h16]; simpa using hk
    · rw [if_neg h16, List.length_append]
      have hk2 : 2 ≤ k := by
        by_contra hc
        have hk1 : k = 1 := by omega
        subst hk1
        rw [pow_one] at hnk
        omega
      have hdiv : n / 16 < 16 ^ (k - 1) := by
        have hsplit : 16 ^ k = 16 ^ (k - 1) * 16 := by
          rw [← pow_succ]
          congr 1
          omega
        rw [hsplit, Nat.mul_comm] at hnk
        exact Nat.div_lt_of_lt_mul hnk
      have hfuel : n / 16 < fuel := by
        have := Nat.div_lt_self (by omega : 0 < n) (by omega : (1 : Nat) < 16)
        omega
      have hrec := ih (n / 16) (k - 1) hfuel (by omega) hdiv
      simp only [List.length_cons, List.length_nil]
      omega

theorem natToHexAux_length_ge : ∀ fuel n k, n < fuel → 16 ^ k ≤ n →
    k + 1 ≤ (natToHexAux fuel n).length := by
  intro fuel
  induction fuel with
  | zero => intro n k h; omega
  | succ fuel ih =>
    intro n k h hk
    rw [natToHexAux]
    by_cases h16 : n < 16
    · rw [if_pos h16]
      have hk0 : k = 0 := by
        by_contra hc
        have h1k : 1 ≤ k := by omega
        have : (16 : Nat) ≤ 16 ^ k := by
          calc (16 : Nat) = 16 ^ 1 := (pow_one 16).symm
          _ ≤ 16 ^ k := Nat.pow_le_pow_right (by omega) h1k
        omega
      subst hk0
      simp
    · rw [if_neg h16, List.length_append]
      cases k with
      | zero => simp only [List.length_cons, List.length_nil]; omega
      | succ k2 =>
        have hdiv : 16 ^ k2 ≤ n / 16 := by
          rw [Nat.le_div_iff_mul_le (by omega : 0 < 16)]
          calc 16 ^ k2 * 16 = 16 ^ (k2 + 1) := by rw [pow_succ]
          _ ≤ n := hk
        have hfuel : n / 16 < fuel := by
          have := Nat.div_lt_self (by omega : 0 < n) (by omega : (1 : Nat) < 16)
          omega
        have hrec := ih (n / 16) k2 hfuel hdiv
        simp only [List.length_cons, List.length_nil]
        omega

theorem pow16_8 : (16 : Nat) ^ 8 = 2 ^ 32 := by norm_num

theorem padStart8_length (l : Str) : (padStart8 l).length = (8 - l.length) + l.length := by
  rw [padStart8, List.length_append, List.length_replicate]

theorem padStart8_natToHex_len_lt {n : Nat} (h : n < 2 ^ 32) :
    (padStart8 (natToHex n)).length = 8 := by
  have hle : (natToHex n).length ≤ 8 := by
    refine natToHexAux_length_le (n + 1) n 8 (by omega) (by omega) ?_
    rw [pow16_8]
    exact h
  rw [padStart8_length]
  omega

theorem padStart8_natToHex_len_ge {n : Nat} (h : 2 ^ 32 ≤ n) :
    (padStart8 (natToHex n)).length ≠ 8 := by
  have hge : 9 ≤ (natToHex n).length := by
    rw [natToHex]
    have := natToHexAux_length_ge (n + 1) n 8 (by omega) (by rw [pow16_8]; exact h)
    omega
  rw [padStart8_length]
  omega

theorem natToHexAux_lower : ∀ fuel n, ∀ c ∈ natToHexAux fuel n, isLowerHexDigit c = true := by
  intro fuel
  induction fuel with
  | zero => intro n c hc; cases hc
  | succ fuel ih =>
    intro n c hc
    rw [natToHexAux] at hc
    by_cases h16 : n < 16
    · rw [if_pos h16, List.mem_singleton] at hc
      rw [hc]
      exact isLowerHexDigit_hexDigitChar h16
    · rw [if_neg h16] at hc
      rcases List.mem_append.mp hc with hc | hc
      · exact ih (n / 16) c hc
      · rw [List.mem_singleton.mp hc]
        exact isLowerHexDigit_hexDigitChar (Nat.mod_lt n (by omega))

theorem padStart8_natToHex_lower (n : Nat) :
    ∀ c ∈ padStart8 (natToHex n), isLowerHexDigit c = true := by
  intro c hc
  rw [padStart8] at hc
  rcases List.mem_append.mp hc with hc | hc
  · rw [List.eq_of_mem_replicate hc]
    decide
  · exact natToHexAux_lower (n + 1) n c hc

/-- C3 (confirmed): `transferData` fails with a `FastbootDeviceError` before
any USB traffic whenever the buffer length needs more than 8 hex digits
(at least `2^32`); otherwise its first USB event is `download:{hex}` with
`hex` the 8-digit lowercase hexadecimal encoding of the length, and if the
response is not a DATA packet whose `dataLength` equals the buffer length,
the call fails with a `FastbootDeviceError` immediately — no payload chunk
is ever written and nothing is retried. -/
theorem fb_C3_transferData (st : EngineState) (len : Nat) (inp : List Str) :
    (2 ^ 32 ≤ len →
      transferData st len inp =
        (st, [], .error (.transferOverflow (padStart8 (natToHex len)))) ∧
      isDeviceError (EngineErr.transferOverflow (padStart8 (natToHex len))) = true) ∧
    (len < 2 ^ 32 →
      (padStart8 (natToHex len)).length = 8 ∧
      hexValue (padStart8 (natToHex len)) = len ∧
      (∀ c ∈ padStart8 (natToHex len), isLowerHexDigit c = true) ∧
      (transferData st len inp).2.1.head? =
        some (.outCmd (str "download:" ++ padStart8 (natToHex len))) ∧
      (∀ st1 evs r rest,
        sendCommand st (str "download:" ++ padStart8 (natToHex len)) inp =
          (st1, evs, .ok (r, rest)) →
        ¬(r.status = .DATA ∧ r.dataLength = some (len : Int)) →
        ∃ e, transferData st len inp = (st1, evs, .error e) ∧
          isDeviceError e = true ∧ ∀ ev ∈ evs, ∀ k, ev ≠ .outChunk k)) := by
  constructor
  · intro h
    have h8 := padStart8_natToHex_len_ge h
    constructor
    · simp only [transferData, if_pos h8]
    · rfl
  · intro h
    have h8 : ¬(padStart8 (natToHex len)).length ≠ 8 := by
      rw [padStart8_natToHex_len_lt h]
      omega
    refine ⟨padStart8_natToHex_len_lt h, ?_, padStart8_natToHex_lower len, ?_, ?_⟩
    · rw [hexValue_padStart8, natToHex_hexValue]
    · cases hres : (sendCommand st (str "download:" ++ padStart8 (natToHex len)) inp).2.2 with
      | error e =>
        simp only [transferData, if_neg h8, hres]
        rw [sendCommand_events]
        rfl
      | ok pr =>
        obtain ⟨r, rest⟩ := pr
        by_cases hD : r.status ≠ .DATA
        · simp only [transferData, if_neg h8, hres, if_pos hD]
          rw [sendCommand_events]
          rfl
        · by_cases hL : r.dataLength ≠ some (len : Int)
          · simp only [transferData, if_neg h8, hres, if_neg hD, if_pos hL]
            rw [sendCommand_events]
            rfl
          · cases hres2 : (getPackets (sendCommand st
                (str "download:" ++ padStart8 (natToHex len)) inp).1 rest).2.2 with
            | error e =>
              simp only [transferData, if_neg h8, hres, if_neg hD, if_neg hL, hres2]
              rw [sendCommand_events]
              rfl
            | ok u =>
              simp only [transferData, if_neg h8, hres, if_neg hD, if_neg hL, hres2]
              rw [sendCommand_events]
              rfl
    · intro st1 evs r rest hsc hcond
      have h1 : (sendCommand st (str "download:" ++ padStart8 (natToHex len)) inp).1 = st1 := by
        rw [hsc]
      have h21 : (sendCommand st (str "download:" ++ padStart8 (natToHex len)) inp).2.1 = evs := by
        rw [hsc]
      have h22 : (sendCommand st (str "download:" ++ padStart8 (natToHex len)) inp).2.2 =
          .ok (r, rest) := by
        rw [hsc]
      have hnochunk : ∀ ev ∈ evs, ∀ k, ev ≠ .outChunk k := by
        intro ev hev
        rw [← h21] at hev
        exact sendCommand_no_chunk st _ inp ev hev
      by_cases hD : r.status ≠ .DATA
      · refine ⟨.wrongResponse r.status, ?_, rfl, hnochunk⟩
        simp only [transferData, if_neg h8, h22, if_pos hD, h1, h21]
      · have hDa : r.status = .DATA := by
          by_contra hc
          exact hD hc
        have hL : r.dataLength ≠ some (len : Int) := by
          intro hc
          exact hcond ⟨hDa, hc⟩
        refine ⟨.lengthMismatch r.dataLength len, ?_, rfl, hnochunk⟩
        simp only [transferData, if_neg h8, h22, if_neg hD, if_pos hL, h1, h21]

/-- C3 witness: both branches at concrete inputs — a `2^32`-byte buffer is
rejected with a device error before any USB event, and a 4-byte buffer whose
`download:00000004` command is answered `OKAY` (not DATA) fails with a
device error after only the command and response events. -/
theorem fb_C3_witness :
    (transferData initialEngine (2 ^ 32) [] =
      (initialEngine, [], .error (.transferOverflow (padStart8 (natToHex (2 ^ 32))))) ∧
      isDeviceError (EngineErr.transferOverflow (padStart8 (natToHex (2 ^ 32)))) = true) ∧
    (∃ e, transferData initialEngine 4 [str "OKAYready"] =
      ((sendCommand initialEngine (str "download:00000004") [str "OKAYready"]).1,
       (sendCommand initialEngine (str "download:00000004") [str "OKAYready"]).2.1,
       .error e) ∧
      isDeviceError e = true ∧
      ∀ ev ∈ (sendCommand initialEngine (str "download:00000004") [str "OKAYready"]).2.1,
        ∀ k, ev ≠ .outChunk k) := by
  constructor
  · exact (fb_C3_transferData initialEngine (2 ^ 32) []).1 (by omega)
  · have hhex : str "download:" ++ padStart8 (natToHex 4) = str "download:00000004" := by
      decide
    have h := ((fb_C3_transferData initialEngine 4 [str "OKAYready"]).2 (by norm_num)).2.2.2.2
    rw [hhex] at h
    exact h ((sendCommand initialEngine (str "download:00000004") [str "OKAYready"]).1)
      ((sendCommand initialEngine (str "download:00000004") [str "OKAYready"]).2.1)
      { status := .OKAY, message := some (str "ready"), dataLength := none }
      [] (by decide) (by decide)

/-! ## C5: `waitForReconnect` schedule -/

/-- C5: what `waitForReconnect` actually does.  For every oracle, the first
two observable steps are the TypeError raised by calling the `logger` object
as a function and the 3-second sleep — the claimed immediate `reconnect()`
attempt never happens.  With the device immediately available, the single
attempt still comes only after that sleep; and a non-connection error at the
third tier is swallowed (the function returns `undefined`) instead of
propagating. -/
theorem fb_C5_waitForReconnect :
    (∀ oracle : Nat → ReconnectOutcome,
      (waitForReconnect oracle).1.take 2 = [.loggerCallTypeError, .sleepMs 3000]) ∧
    waitForReconnect (fun _ => .success) =
      ([.loggerCallTypeError, .sleepMs 3000, .attemptReconnect], .resolved true) ∧
    waitForReconnect (fun i => if i = 0 then .connErr else .otherErr 7) =
      ([.loggerCallTypeError, .sleepMs 3000, .attemptReconnect, .sleepMs 30000,
        .attemptReconnect], .returnedUndefined) := by
  refine ⟨?_, by decide, by decide⟩
  intro oracle
  rw [waitForReconnect]
  cases oracle 0 with
  | success => rfl
  | otherErr t => rfl
  | connErr =>
    cases oracle 1 with
    | success => rfl
    | otherErr t => rfl
    | connErr =>
      cases oracle 2 with
      | success => rfl
      | connErr => rfl
      | otherErr t => rfl
